import Mathlib

/-!
Shallow embedding of `src/ScriptCuentas.py` (BESTUPC/FuckYouTransfers):
a transaction-ledger aggregator.  Pure functions of the script are
translated into executable Lean definitions; the spreadsheet-writing
functions are modelled by the pure data they compute (section row lists
and running totals).  Money is integer cents (`Int`), dates are integer
epoch milliseconds.
-/

namespace Cuentas

/-! ## Text helpers

Python string operations used by the script (`split`, `replace`,
slicing, `int(...)`) are modelled on `List Char` with structural
recursion so that every definition evaluates inside the kernel. -/

/-- Splits a character list on a separator character, mirroring Python's
`str.split(sep)`: the empty string yields `[""]`, and `n` separators
yield `n+1` (possibly empty) groups. -/
def splitOnChar (sep : Char) : List Char → List (List Char)
  | [] => [[]]
  | c :: cs =>
    if c = sep then [] :: splitOnChar sep cs
    else
      match splitOnChar sep cs with
      | [] => [[c]]
      | g :: gs => (c :: g) :: gs

/-- Removes every occurrence of a character, mirroring Python's
`str.replace(c, '')`. -/
def removeChar (x : Char) (cs : List Char) : List Char :=
  cs.filter (fun c => c ≠ x)

/-- `amount.replace(',', '').replace('.', '')` from `parseAmount`. -/
def stripSeps (cs : List Char) : List Char :=
  removeChar '.' (removeChar ',' cs)

/-- Whitespace stripped by Python's `int(str)` conversion
(`' '`, `\t`, `\n`, `\r`, `\x0b`, `\x0c`; only the ASCII range is
modelled). -/
def pyIsSpace (c : Char) : Bool :=
  c = ' ' ∨ c = '\t' ∨ c = '\n' ∨ c = '\r' ∨ c = '\x0b' ∨ c = '\x0c'

/-- Strips leading and trailing `pyIsSpace` characters. -/
def stripWs (cs : List Char) : List Char :=
  ((cs.dropWhile pyIsSpace).reverse.dropWhile pyIsSpace).reverse

/-- Decimal value of a digit character. -/
def digitVal (c : Char) : Nat := c.toNat - '0'.toNat

/-- Digit-sequence body of a Python integer literal: a nonempty run of
decimal digits in which single underscores may appear between digits.
`prevDigit` records whether the previous character was a digit (an
underscore is legal, and the string may end, only when it is `true`). -/
def pyDigits (prevDigit : Bool) (acc : Nat) : List Char → Option Nat
  | [] => if prevDigit then some acc else none
  | c :: cs =>
    if c.isDigit then pyDigits true (acc * 10 + digitVal c) cs
    else if c = '_' then (if prevDigit then pyDigits false acc cs else none)
    else none

/-- Python's `int(str)` conversion on ASCII input: optional surrounding
whitespace, an optional `'+'` or `'-'` sign, then decimal digits with
optional single underscore separators.  Returns `none` exactly when
Python raises `ValueError`. -/
def pyInt (cs : List Char) : Option Int :=
  match stripWs cs with
  | '-' :: rest => (pyDigits false 0 rest).map (fun n => -(n : Int))
  | '+' :: rest => (pyDigits false 0 rest).map (fun n => (n : Int))
  | rest => (pyDigits false 0 rest).map (fun n => (n : Int))

/-! ## Money/Date codec (`formatAmount`, `parseAmount`, `parseDate`,
`parseAdvance`) -/

/-- `str(amount)` for a Python integer. -/
def intToChars (i : Int) : List Char :=
  if i < 0 then '-' :: Nat.toDigits 10 i.natAbs else Nat.toDigits 10 i.toNat

/-- Python slice `s[:-2]` (everything but the last two characters). -/
def pyDropLast2 (cs : List Char) : List Char := cs.take (cs.length - 2)

/-- Python slice `s[-2:]` (the last two characters, or all of a shorter
string). -/
def pyTakeLast2 (cs : List Char) : List Char := cs.drop (cs.length - 2)

/-- `formatAmount` from the script: renders `0` as `"0,00"`, otherwise
splices a comma two characters from the end of `str(amount)` and
appends `" €"`. -/
def formatAmount (amount : Int) : String :=
  if amount = 0 then "0,00"
  else
    let cs := intToChars amount
    String.mk (pyDropLast2 cs ++ ',' :: pyTakeLast2 cs ++ [' ', '€'])

/-- `parseAmount` from the script: on an empty string Python's
`amount[0]` raises `IndexError` (modelled as `none`); a leading `'-'`
is stripped and the sign applied after conversion; in both branches all
`','` and `'.'` characters are removed and the remainder is converted
with `int(...)`. -/
def parseAmount (amount : String) : Option Int :=
  match amount.data with
  | [] => none
  | '-' :: rest => (pyInt (stripSeps rest)).map (fun n => -1 * n)
  | c :: rest => pyInt (stripSeps (c :: rest))

/-- `parseAdvance` from the script: `true` exactly on `"Y"`. -/
def parseAdvance (advance : String) : Bool := advance == "Y"

/-- All characters are decimal digits. -/
def allDigits (cs : List Char) : Bool := cs.all Char.isDigit

/-- Numeric value of a digit string. -/
def digitsToNat (cs : List Char) : Nat :=
  cs.foldl (fun n c => n * 10 + digitVal c) 0

/-- The day field accepted by `strptime`'s `%d`: one or two digits with
value 1–31. -/
def validDayField (cs : List Char) : Bool :=
  allDigits cs ∧ 1 ≤ cs.length ∧ cs.length ≤ 2
    ∧ 1 ≤ digitsToNat cs ∧ digitsToNat cs ≤ 31

/-- The month field accepted by `strptime`'s `%m`: one or two digits
with value 1–12. -/
def validMonthField (cs : List Char) : Bool :=
  allDigits cs ∧ 1 ≤ cs.length ∧ cs.length ≤ 2
    ∧ 1 ≤ digitsToNat cs ∧ digitsToNat cs ≤ 12

/-- Gregorian leap-year rule. -/
def isLeap (y : Nat) : Bool := y % 4 = 0 ∧ (y % 100 ≠ 0 ∨ y % 400 = 0)

/-- Days in a month of the proleptic Gregorian calendar. -/
def daysInMonth (y m : Nat) : Nat :=
  if m = 2 then (if isLeap y then 29 else 28)
  else if m = 4 ∨ m = 6 ∨ m = 9 ∨ m = 11 then 30
  else 31

/-- Days from 1970-01-01 to year `y`, month `m`, day `d` (civil
calendar, `y ≥ 1`); negative for dates before the epoch. -/
def daysFromCivil (y m d : Nat) : Int :=
  let y' := if m ≤ 2 then y - 1 else y
  let era := y' / 400
  let yoe := y' % 400
  let mp := (m + 9) % 12
  let doy := (153 * mp + 2) / 5 + d - 1
  let doe := yoe * 365 + yoe / 4 - yoe / 100 + doy
  (era * 146097 + doe : Int) - 719468

/-- `parseDate` from the script: `strptime(date, '%d/%m/%Y')` followed
by `.timestamp() * 1000`.  The string must be exactly
day `/` month `/` 4-digit-year with the field patterns of `%d`, `%m`,
`%Y`, and the combination must be a valid calendar date with year ≥ 1
(`datetime` raises `ValueError` otherwise).  The timestamp is taken at
UTC midnight; the script uses the local timezone, whose constant offset
is abstracted away (no claim depends on the absolute value). -/
def parseDate (date : String) : Option Int :=
  match splitOnChar '/' date.data with
  | [ds, ms, ys] =>
    if validDayField ds ∧ validMonthField ms
        ∧ allDigits ys ∧ ys.length = 4 then
      let d := digitsToNat ds
      let m := digitsToNat ms
      let y := digitsToNat ys
      if 1 ≤ y ∧ d ≤ daysInMonth y m then
        some (daysFromCivil y m d * 86400000)
      else none
    else none
  | _ => none

/-! ## Transaction model and `parseTransactions` -/

/-- The transaction record built by `parseTransactions` (field order
and names as in the script's dictionary). -/
structure Transaction where
  movement : String
  date : Int
  info : String
  amount : Int
  name : String
  event : String
  concept : String
  advance : Bool
  origin : String
  comment : String
deriving DecidableEq, Repr

/-- The `dataArray` of one `parseTransactions` iteration: `line[:-1]`
removes the final character of the line unconditionally and the result
is split on `';'`. -/
def dataArrayOf (line : String) : List String :=
  (splitOnChar ';' line.data.dropLast).map String.mk

/-- One iteration of the `parseTransactions` loop: fields of
`dataArray` at indices 0–9 populate the transaction (extra fields are
ignored, fewer than ten fields is an `IndexError`, and a failing
date/amount sub-parser aborts). -/
def parseLine (line : String) : Option Transaction :=
  match dataArrayOf line with
  | m :: d :: inf :: a :: n :: e :: c :: adv :: o :: cm :: _ => do
    let dv ← parseDate d
    let av ← parseAmount a
    some { movement := m, date := dv, info := inf, amount := av,
           name := n, event := e, concept := c,
           advance := parseAdvance adv, origin := o, comment := cm }
  | _ => none

/-- Parses every data line in order; any failing line aborts the whole
run (no line is dropped). -/
def parseLines : List String → Option (List Transaction)
  | [] => some []
  | l :: ls => do
    let t ← parseLine l
    let ts ← parseLines ls
    some (t :: ts)

/-- The `if transaction['event'] not in eventNames: append` step of the
parse loop (also the concept-collection step of
`getEventConceptNames`). -/
def dedupAppend (acc : List String) (x : String) : List String :=
  if x ∈ acc then acc else acc ++ [x]

/-- The distinct event names of a transaction list in first-occurrence
order, as accumulated by the `parseTransactions` loop. -/
def eventNamesOf (ts : List Transaction) : List String :=
  ts.foldl (fun acc t => dedupAppend acc t.event) []

/-- `parseTransactions` from the script, with the file modelled as its
list of lines (each line carrying its trailing newline when the file
has one there).  The two header lines are skipped unconditionally;
fewer than two lines makes `next(inputFile)` raise `StopIteration`. -/
def parseTransactions (lines : List String) :
    Option (List Transaction × List String) :=
  match lines with
  | _ :: _ :: rest =>
    (parseLines rest).map (fun ts => (ts, eventNamesOf ts))
  | _ => none

/-! ## Aggregation (`sumAmounts`, `calulcateGross`, concept breakdown,
`calculateEvent`) -/

/-- `sumAmounts` from the script: `reduce(+)` over the amounts, `0` for
an empty list. -/
def sumAmounts (transactions : List Transaction) : Int :=
  match transactions.map (fun t => t.amount) with
  | [] => 0
  | a :: rest => rest.foldl (· + ·) a

/-- The per-origin loss/profit/balance record returned by
`calulcateGross`. -/
structure Gross where
  grossLoss : Int
  grossProfit : Int
  grossBalance : Int
deriving DecidableEq, Repr

/-- `calulcateGross` from the script (the name keeps the script's
spelling): filters both sign-partitions by origin, sums each, and
stores the balance as their sum. -/
def calulcateGross (transactionsEventLoss transactionsEventProfit :
    List Transaction) (origin : String) : Gross :=
  let transactionsLoss :=
    transactionsEventLoss.filter (fun t => t.origin == origin)
  let transactionsProfit :=
    transactionsEventProfit.filter (fun t => t.origin == origin)
  let grossLoss := sumAmounts transactionsLoss
  let grossProfit := sumAmounts transactionsProfit
  { grossLoss := grossLoss, grossProfit := grossProfit,
    grossBalance := grossLoss + grossProfit }

/-- `getEventConceptNames` from the script: concept names in
first-occurrence order. -/
def getEventConceptNames (transactions : List Transaction) : List String :=
  transactions.foldl (fun acc t => dedupAppend acc t.concept) []

/-- One named entry of the net-loss concept breakdown. -/
structure LossConcept where
  name : String
  amount : Int
deriving DecidableEq, Repr

/-- `calculateEventLossConcepts` from the script: for each concept name
in order, the sum of the non-advance loss transactions with that
concept, together with the running total of those sums. -/
def calculateEventLossConcepts (conceptNames : List String)
    (transactionsLoss : List Transaction) : List LossConcept × Int :=
  match conceptNames with
  | [] => ([], 0)
  | c :: cs =>
    let amount := sumAmounts (transactionsLoss.filter
      (fun t => t.concept == c && !t.advance))
    let rest := calculateEventLossConcepts cs transactionsLoss
    (⟨c, amount⟩ :: rest.1, amount + rest.2)

/-- The per-event aggregate returned by `calculateEvent`. -/
structure EventAggregate where
  transactionsProfit : List Transaction
  transactionsLoss : List Transaction
  caixaGross : Gross
  paypalGross : Gross
  totalGrossLoss : Int
  totalGrossProfit : Int
  totalGrossBalance : Int
  netLossConcepts : List LossConcept
  netLossTotal : Int
deriving DecidableEq, Repr

/-- `calculateEvent` from the script. -/
def calculateEvent (eventName : String) (transactions : List Transaction) :
    EventAggregate :=
  let transactionsEvent :=
    transactions.filter (fun t => t.event == eventName)
  let transactionsEventLoss :=
    transactionsEvent.filter (fun t => decide (t.amount < 0))
  let transactionsEventProfit :=
    transactionsEvent.filter (fun t => decide (0 < t.amount))
  let caixaGross :=
    calulcateGross transactionsEventLoss transactionsEventProfit "CAIXA"
  let paypalGross :=
    calulcateGross transactionsEventLoss transactionsEventProfit "PAYPAL"
  let grossLoss := caixaGross.grossLoss + paypalGross.grossLoss
  let grossProfit := caixaGross.grossProfit + paypalGross.grossProfit
  let grossBalance := grossProfit + grossLoss
  let conceptNames := getEventConceptNames transactionsEventLoss
  let netLoss := calculateEventLossConcepts conceptNames transactionsEventLoss
  { transactionsProfit := transactionsEventProfit,
    transactionsLoss := transactionsEventLoss,
    caixaGross := caixaGross,
    paypalGross := paypalGross,
    totalGrossLoss := grossLoss,
    totalGrossProfit := grossProfit,
    totalGrossBalance := grossBalance,
    netLossConcepts := netLoss.1,
    netLossTotal := netLoss.2 }

/-- The `balances` dictionary built by the script's main loop: every
event name is mapped to `calculateEvent` of the full transaction
list. -/
def balancesOf (transactions : List Transaction) :
    String → EventAggregate :=
  fun eventName => calculateEvent eventName transactions

/-! ## Final-summary model (`writeEvents`)

`writeEvents` renders three sections (ordinary events, grants, taxes)
and accumulates `totalCaixa`/`totalPaypal`/`total` across them,
emitting the accumulated totals after the grants section ("Gross
Total") and again after the taxes section ("Net Total").  The model
below records the row lists of the three sections and the two
checkpoint totals; cell styling and the interactive liquidity block are
presentation-only and not modelled. -/

/-- The three running totals of `writeEvents`. -/
structure Totals where
  caixa : Int
  paypal : Int
  total : Int
deriving DecidableEq, Repr

/-- Adding one event's balances to the running totals (the three `+=`
lines that every section of `writeEvents` repeats). -/
def addEventTotals (balances : String → EventAggregate)
    (acc : Totals) (eventName : String) : Totals :=
  { caixa := acc.caixa + (balances eventName).caixaGross.grossBalance,
    paypal := acc.paypal + (balances eventName).paypalGross.grossBalance,
    total := acc.total + (balances eventName).totalGrossBalance }

/-- The data computed by `writeEvents`: the event rows of each section
and the two checkpoint totals. -/
structure EventsSummary where
  ordinaryRows : List String
  grantRows : List String
  taxRows : List String
  grossTotal : Totals
  netTotal : Totals
deriving DecidableEq, Repr

/-- The section and totals logic of `writeEvents`: the first loop takes
events in neither name list, the second those in `grantNames`, the
third those in `taxNames` (each an independent membership test), with
the running totals carried through in that order. -/
def writeEventsSummary (eventNames : List String)
    (balances : String → EventAggregate)
    (taxNames grantNames : List String) : EventsSummary :=
  let ordinaryRows := eventNames.filter
    (fun e => !(decide (e ∈ taxNames)) && !(decide (e ∈ grantNames)))
  let grantRows := eventNames.filter (fun e => decide (e ∈ grantNames))
  let taxRows := eventNames.filter (fun e => decide (e ∈ taxNames))
  let afterOrdinary :=
    ordinaryRows.foldl (addEventTotals balances) ⟨0, 0, 0⟩
  let afterGrants := grantRows.foldl (addEventTotals balances) afterOrdinary
  let afterTaxes := taxRows.foldl (addEventTotals balances) afterGrants
  { ordinaryRows := ordinaryRows, grantRows := grantRows,
    taxRows := taxRows, grossTotal := afterGrants, netTotal := afterTaxes }

/-! ## Specification-side helpers

These are not translations of the script; they are independent
reference definitions used to state claims (first-occurrence
deduplication stated recursively rather than by the script's
accumulating loop, joining/stripping helpers for round-trip claims). -/

/-- First-occurrence deduplication, stated by structural recursion:
keep the head and strip later copies of it. -/
def firstOccur : List String → List String
  | [] => []
  | x :: xs => x :: (firstOccur xs).filter (fun y => y ≠ x)

/-- Joins fields with `';'` separators (used to state claims about
lines of the input file). -/
def joinSemi : List (List Char) → List Char
  | [] => []
  | [f] => f
  | f :: fs => f ++ ';' :: joinSemi fs

/-- Removes the two-character `" €"` suffix that `formatAmount`
appends. -/
def stripCurrencySuffix (s : String) : String :=
  String.mk s.data.dropLast.dropLast

/-- A transaction with the fields the claims care about; the
pass-through text fields are empty and the date is 0. -/
def mkT (amount : Int) (event origin concept : String)
    (advance : Bool) : Transaction :=
  { movement := "", date := 0, info := "", amount := amount, name := "",
    event := event, concept := concept, advance := advance,
    origin := origin, comment := "" }

/-- The two-transaction scenario of the spec's "Gala" example. -/
def galaExample : List Transaction :=
  [mkT (-1000) "Gala" "CAIXA" "" false, mkT 500 "Gala" "PAYPAL" "" false]

/-- A single transaction whose origin is neither CAIXA nor PAYPAL. -/
def otherOriginExample : List Transaction :=
  [mkT 100 "E" "OTHER" "" false]

/-- A single loss transaction with a concept, for the net-loss
breakdown. -/
def lossConceptExample : List Transaction :=
  [mkT (-500) "E" "CAIXA" "food" false]

/-- A single profit transaction for an event classified as both a
grant and a tax. -/
def dualCategoryExample : List Transaction :=
  [mkT 100 "X" "CAIXA" "" false]

/-- The transaction encoded by the data line
`"M;01/01/2023;I;1,00;N;E;C;N;CAIXA;c\n"`. -/
def sampleTransaction : Transaction :=
  { movement := "M", date := 1672531200000, info := "I", amount := 100,
    name := "N", event := "E", concept := "C", advance := false,
    origin := "CAIXA", comment := "c" }

/-- Sum of the amounts of a transaction list stated through `List.sum`
(reference form of `sumAmounts`). -/
def amountSum (l : List Transaction) : Int :=
  (l.map (fun t => t.amount)).sum

/-- The transaction's origin is one of the two aggregated payment
channels. -/
def inChannels (t : Transaction) : Bool :=
  t.origin == "CAIXA" || t.origin == "PAYPAL"

/-! ## Helper lemmas -/

theorem foldl_add_eq (l : List Int) (a : Int) :
    l.foldl (· + ·) a = a + l.sum := by
  induction l generalizing a with
  | nil => simp
  | cons x xs ih => rw [List.foldl_cons, ih, List.sum_cons]; ring

theorem sumAmounts_eq_amountSum (ts : List Transaction) :
    sumAmounts ts = amountSum ts := by
  cases ts with
  | nil => rfl
  | cons t ts' =>
    show (ts'.map (fun t => t.amount)).foldl (· + ·) t.amount = _
    rw [foldl_add_eq]
    simp [amountSum]

theorem amountSum_nil : amountSum [] = 0 := rfl

theorem amountSum_cons (t : Transaction) (ts : List Transaction) :
    amountSum (t :: ts) = t.amount + amountSum ts := by
  simp [amountSum]

theorem amountSum_nonpos (l : List Transaction)
    (h : ∀ t ∈ l, t.amount ≤ 0) : amountSum l ≤ 0 := by
  induction l with
  | nil => simp [amountSum]
  | cons t ts ih =>
    rw [amountSum_cons]
    have h1 := h t (List.mem_cons_self t ts)
    have h2 := ih (fun x hx => h x (List.mem_cons_of_mem _ hx))
    omega

theorem amountSum_nonneg (l : List Transaction)
    (h : ∀ t ∈ l, 0 ≤ t.amount) : 0 ≤ amountSum l := by
  induction l with
  | nil => simp [amountSum]
  | cons t ts ih =>
    rw [amountSum_cons]
    have h1 := h t (List.mem_cons_self t ts)
    have h2 := ih (fun x hx => h x (List.mem_cons_of_mem _ hx))
    omega

theorem amountSum_filter_split (l : List Transaction)
    (p q : Transaction → Bool) :
    amountSum (l.filter fun t => p t && q t)
      + amountSum (l.filter fun t => p t && !q t)
      = amountSum (l.filter p) := by
  induction l with
  | nil => simp [amountSum]
  | cons t ts ih =>
    by_cases hp : p t <;> by_cases hq : q t <;>
      simp [List.filter_cons, hp, hq, amountSum_cons] <;> omega

theorem amountSum_partition_by_event (P : Transaction → Bool)
    (es : List String) :
    ∀ ts : List Transaction, es.Nodup →
      (∀ t ∈ ts, P t = true → t.event ∈ es) →
      (es.map (fun e =>
          amountSum (ts.filter fun t => (t.event == e) && P t))).sum
        = amountSum (ts.filter P) := by
  induction es with
  | nil =>
    intro ts _ hcov
    have hnil : ts.filter P = [] := by
      rw [List.filter_eq_nil_iff]
      intro t ht hP
      exact (List.not_mem_nil t.event) (hcov t ht hP)
    simp [hnil, amountSum]
  | cons e es ih =>
    intro ts hnd hcov
    rw [List.map_cons, List.sum_cons]
    have hne : e ∉ es := (List.nodup_cons.mp hnd).1
    have hnd' : es.Nodup := (List.nodup_cons.mp hnd).2
    have hsplit := amountSum_filter_split ts P (fun t => t.event == e)
    have hcomm : ts.filter (fun t => P t && (t.event == e))
        = ts.filter (fun t => (t.event == e) && P t) :=
      List.filter_congr (fun t _ => Bool.and_comm _ _)
    have hrest : ∀ e' ∈ es,
        ts.filter (fun t => (t.event == e') && P t)
          = (ts.filter (fun t => !(t.event == e))).filter
              (fun t => (t.event == e') && P t) := by
      intro e' he'
      have hne' : e' ≠ e := fun h => hne (h ▸ he')
      rw [List.filter_filter]
      apply List.filter_congr
      intro t _
      by_cases ht : t.event = e'
      · have h1 : (t.event == e) = false := by
          rw [ht]; exact beq_eq_false_iff_ne.mpr hne'
        rw [h1]
        simp
      · have h1 : (t.event == e') = false := beq_eq_false_iff_ne.mpr ht
        rw [h1]
        simp
    have hmap : (es.map (fun e' =>
        amountSum (ts.filter fun t => (t.event == e') && P t))).sum
        = (es.map (fun e' =>
            amountSum ((ts.filter (fun t => !(t.event == e))).filter
              fun t => (t.event == e') && P t))).sum := by
      congr 1
      exact List.map_congr_left (fun e' he' => by rw [hrest e' he'])
    have hcov' : ∀ t ∈ ts.filter (fun t => !(t.event == e)),
        P t = true → t.event ∈ es := by
      intro t ht hP
      rcases List.mem_filter.mp ht with ⟨htt, hev⟩
      have := hcov t htt hP
      rcases List.mem_cons.mp this with h | h
      · exfalso
        simp at hev
        exact hev h
      · exact h
    have hih := ih (ts.filter (fun t => !(t.event == e))) hnd' hcov'
    have hff : (ts.filter (fun t => !(t.event == e))).filter P
        = ts.filter (fun t => P t && !(t.event == e)) :=
      List.filter_filter _ _
    rw [hmap, hih, hff, ← hcomm]
    exact hsplit

theorem foldl_dedupAppend_eq (l : List String) :
    ∀ acc : List String, l.foldl dedupAppend acc
      = acc ++ (firstOccur l).filter (fun y => decide (y ∉ acc)) := by
  induction l with
  | nil => intro acc; simp [firstOccur]
  | cons x xs ih =>
    intro acc
    rw [List.foldl_cons]
    by_cases hx : x ∈ acc
    · simp only [dedupAppend, if_pos hx]
      rw [ih acc]
      congr 1
      simp only [firstOccur, List.filter_cons]
      rw [if_neg (by simp [hx])]
      rw [List.filter_filter]
      apply List.filter_congr
      intro y _
      by_cases hy : y ∈ acc
      · simp [hy]
      · have hyx : y ≠ x := fun h => hy (h ▸ hx)
        simp [hy, hyx]
    · simp only [dedupAppend, if_neg hx]
      rw [ih (acc ++ [x])]
      simp only [firstOccur, List.filter_cons]
      rw [if_pos (by simp [hx])]
      rw [List.filter_filter, List.append_assoc, List.singleton_append]
      congr 2
      apply List.filter_congr
      intro y _
      by_cases hy : y ∈ acc
      · simp [hy]
      · by_cases hyx : y = x
        · simp [hyx, hy]
        · simp [hy, hyx]

theorem eventNamesOf_eq (ts : List Transaction) :
    eventNamesOf ts = firstOccur (ts.map (fun t => t.event)) := by
  have h := foldl_dedupAppend_eq (ts.map (fun t => t.event)) []
  rw [List.foldl_map] at h
  unfold eventNamesOf
  rw [h]
  simp

theorem getEventConceptNames_eq (ts : List Transaction) :
    getEventConceptNames ts = firstOccur (ts.map (fun t => t.concept)) := by
  have h := foldl_dedupAppend_eq (ts.map (fun t => t.concept)) []
  rw [List.foldl_map] at h
  unfold getEventConceptNames
  rw [h]
  simp

theorem mem_firstOccur {y : String} :
    ∀ {l : List String}, y ∈ firstOccur l ↔ y ∈ l := by
  intro l
  induction l with
  | nil => simp [firstOccur]
  | cons x xs ih =>
    simp only [firstOccur, List.mem_cons, List.mem_filter,
      decide_eq_true_eq]
    by_cases hyx : y = x
    · simp [hyx]
    · simp [hyx, ih]

theorem nodup_firstOccur : ∀ l : List String, (firstOccur l).Nodup := by
  intro l
  induction l with
  | nil => simp [firstOccur]
  | cons x xs ih =>
    simp only [firstOccur]
    rw [List.nodup_cons]
    constructor
    · intro hmem
      rcases List.mem_filter.mp hmem with ⟨_, hne⟩
      simp at hne
    · exact ih.filter _

theorem calculateEvent_loss (e : String) (ts : List Transaction) :
    (calculateEvent e ts).transactionsLoss
      = (ts.filter (fun t => t.event == e)).filter
          (fun t => decide (t.amount < 0)) := rfl

theorem calculateEvent_profit (e : String) (ts : List Transaction) :
    (calculateEvent e ts).transactionsProfit
      = (ts.filter (fun t => t.event == e)).filter
          (fun t => decide (0 < t.amount)) := rfl

theorem calculateEvent_caixa (e : String) (ts : List Transaction) :
    (calculateEvent e ts).caixaGross
      = calulcateGross (calculateEvent e ts).transactionsLoss
          (calculateEvent e ts).transactionsProfit "CAIXA" := rfl

theorem calculateEvent_paypal (e : String) (ts : List Transaction) :
    (calculateEvent e ts).paypalGross
      = calulcateGross (calculateEvent e ts).transactionsLoss
          (calculateEvent e ts).transactionsProfit "PAYPAL" := rfl

theorem calculateEvent_totalLoss (e : String) (ts : List Transaction) :
    (calculateEvent e ts).totalGrossLoss
      = (calculateEvent e ts).caixaGross.grossLoss
          + (calculateEvent e ts).paypalGross.grossLoss := rfl

theorem calculateEvent_totalProfit (e : String) (ts : List Transaction) :
    (calculateEvent e ts).totalGrossProfit
      = (calculateEvent e ts).caixaGross.grossProfit
          + (calculateEvent e ts).paypalGross.grossProfit := rfl

theorem calculateEvent_totalBalance (e : String) (ts : List Transaction) :
    (calculateEvent e ts).totalGrossBalance
      = (calculateEvent e ts).totalGrossProfit
          + (calculateEvent e ts).totalGrossLoss := rfl

theorem calculateEvent_concepts (e : String) (ts : List Transaction) :
    (calculateEvent e ts).netLossConcepts
      = (calculateEventLossConcepts
          (getEventConceptNames (calculateEvent e ts).transactionsLoss)
          (calculateEvent e ts).transactionsLoss).1 := rfl

theorem calculateEvent_netTotal (e : String) (ts : List Transaction) :
    (calculateEvent e ts).netLossTotal
      = (calculateEventLossConcepts
          (getEventConceptNames (calculateEvent e ts).transactionsLoss)
          (calculateEvent e ts).transactionsLoss).2 := rfl

theorem calulcateGross_loss (L Pr : List Transaction) (o : String) :
    (calulcateGross L Pr o).grossLoss
      = sumAmounts (L.filter (fun t => t.origin == o)) := rfl

theorem calulcateGross_profit (L Pr : List Transaction) (o : String) :
    (calulcateGross L Pr o).grossProfit
      = sumAmounts (Pr.filter (fun t => t.origin == o)) := rfl

theorem calulcateGross_balance (L Pr : List Transaction) (o : String) :
    (calulcateGross L Pr o).grossBalance
      = (calulcateGross L Pr o).grossLoss
          + (calulcateGross L Pr o).grossProfit := rfl

theorem and_bne_lt (a : Int) (X : Bool) :
    (((a != 0) && X) && decide (a < 0)) = (X && decide (a < 0)) := by
  rcases lt_trichotomy a 0 with h | h | h
  · have h1 : (a != 0) = true := bne_iff_ne.mpr (by omega)
    rw [h1]
    simp
  · subst h
    simp
  · have h2 : decide (a < 0) = false := decide_eq_false (by omega)
    rw [h2]
    simp

theorem and_bne_gt (a : Int) (X : Bool) :
    (((a != 0) && X) && !decide (a < 0)) = (X && decide (0 < a)) := by
  rcases lt_trichotomy a 0 with h | h | h
  · have h1 : decide (a < 0) = true := decide_eq_true h
    have h2 : decide (0 < a) = false := decide_eq_false (by omega)
    rw [h1, h2]
    simp
  · subst h
    simp
  · have h1 : (a != 0) = true := bne_iff_ne.mpr (by omega)
    have h2 : decide (a < 0) = false := decide_eq_false (by omega)
    have h3 : decide (0 < a) = true := decide_eq_true h
    rw [h1, h2, h3]
    simp

theorem and_channels_caixa (t : Transaction) :
    (((t.amount != 0) && inChannels t) && (t.origin == "CAIXA"))
      = ((t.amount != 0) && (t.origin == "CAIXA")) := by
  by_cases hc : t.origin = "CAIXA"
  · simp [inChannels, hc]
  · have h1 : (t.origin == "CAIXA") = false := beq_eq_false_iff_ne.mpr hc
    rw [h1]
    simp

theorem and_channels_paypal (t : Transaction) :
    (((t.amount != 0) && inChannels t) && !(t.origin == "CAIXA"))
      = ((t.amount != 0) && (t.origin == "PAYPAL")) := by
  by_cases hc : t.origin = "CAIXA"
  · have h1 : (t.origin == "PAYPAL") = false := by
      rw [hc]; decide
    simp [hc, h1]
  · have h1 : (t.origin == "CAIXA") = false := beq_eq_false_iff_ne.mpr hc
    rw [h1]
    simp [inChannels, h1]

theorem origin_gross_parts (e : String) (ts : List Transaction)
    (o : String) :
    amountSum (((ts.filter (fun t => t.event == e)).filter
          (fun t => decide (t.amount < 0))).filter (fun t => t.origin == o))
      + amountSum (((ts.filter (fun t => t.event == e)).filter
          (fun t => decide (0 < t.amount))).filter (fun t => t.origin == o))
      = amountSum ((ts.filter (fun t => t.event == e)).filter
          (fun t => (t.amount != 0) && (t.origin == o))) := by
  have hsplit := amountSum_filter_split (ts.filter (fun t => t.event == e))
    (fun t => (t.amount != 0) && (t.origin == o))
    (fun t => decide (t.amount < 0))
  have hlt : ((ts.filter (fun t => t.event == e)).filter
        (fun t => decide (t.amount < 0))).filter (fun t => t.origin == o)
      = (ts.filter (fun t => t.event == e)).filter
          (fun t => ((t.amount != 0) && (t.origin == o))
            && decide (t.amount < 0)) := by
    rw [List.filter_filter]
    exact List.filter_congr (fun (t : Transaction) _ =>
      (and_bne_lt t.amount _).symm)
  have hgt : ((ts.filter (fun t => t.event == e)).filter
        (fun t => decide (0 < t.amount))).filter (fun t => t.origin == o)
      = (ts.filter (fun t => t.event == e)).filter
          (fun t => ((t.amount != 0) && (t.origin == o))
            && !decide (t.amount < 0)) := by
    rw [List.filter_filter]
    exact List.filter_congr (fun (t : Transaction) _ =>
      (and_bne_gt t.amount _).symm)
  rw [hlt, hgt]
  exact hsplit

theorem channel_split (e : String) (ts : List Transaction) :
    amountSum ((ts.filter (fun t => t.event == e)).filter
        (fun t => (t.amount != 0) && (t.origin == "CAIXA")))
      + amountSum ((ts.filter (fun t => t.event == e)).filter
          (fun t => (t.amount != 0) && (t.origin == "PAYPAL")))
      = amountSum ((ts.filter (fun t => t.event == e)).filter
          (fun t => (t.amount != 0) && inChannels t)) := by
  have hsplit := amountSum_filter_split (ts.filter (fun t => t.event == e))
    (fun t => (t.amount != 0) && inChannels t)
    (fun t => t.origin == "CAIXA")
  have hc : (ts.filter (fun t => t.event == e)).filter
        (fun t => ((t.amount != 0) && inChannels t)
          && (t.origin == "CAIXA"))
      = (ts.filter (fun t => t.event == e)).filter
          (fun t => (t.amount != 0) && (t.origin == "CAIXA")) :=
    List.filter_congr (fun t _ => and_channels_caixa t)
  have hp : (ts.filter (fun t => t.event == e)).filter
        (fun t => ((t.amount != 0) && inChannels t)
          && !(t.origin == "CAIXA"))
      = (ts.filter (fun t => t.event == e)).filter
          (fun t => (t.amount != 0) && (t.origin == "PAYPAL")) :=
    List.filter_congr (fun t _ => and_channels_paypal t)
  rw [hc, hp] at hsplit
  exact hsplit

theorem totalGrossBalance_eq (e : String) (ts : List Transaction) :
    (calculateEvent e ts).totalGrossBalance
      = amountSum (ts.filter fun t =>
          (t.event == e) && ((t.amount != 0) && inChannels t)) := by
  have hR : ts.filter (fun t =>
        (t.event == e) && ((t.amount != 0) && inChannels t))
      = (ts.filter (fun t => t.event == e)).filter
          (fun t => (t.amount != 0) && inChannels t) := by
    rw [List.filter_filter]
    exact List.filter_congr (fun t _ => Bool.and_comm _ _)
  rw [hR, calculateEvent_totalBalance, calculateEvent_totalProfit,
    calculateEvent_totalLoss, calculateEvent_caixa, calculateEvent_paypal,
    calulcateGross_loss, calulcateGross_loss, calulcateGross_profit,
    calulcateGross_profit, calculateEvent_loss, calculateEvent_profit,
    sumAmounts_eq_amountSum, sumAmounts_eq_amountSum,
    sumAmounts_eq_amountSum, sumAmounts_eq_amountSum]
  have hc := origin_gross_parts e ts "CAIXA"
  have hp := origin_gross_parts e ts "PAYPAL"
  have hch := channel_split e ts
  omega

theorem parseLines_some_spec :
    ∀ (ls : List String) (ts : List Transaction),
      parseLines ls = some ts →
      ts.length = ls.length ∧
        ∀ i (h1 : i < ls.length) (h2 : i < ts.length),
          parseLine (ls.get ⟨i, h1⟩) = some (ts.get ⟨i, h2⟩) := by
  intro ls
  induction ls with
  | nil =>
    intro ts h
    simp [parseLines] at h
    subst h
    exact ⟨rfl, fun i h1 _ => absurd h1 (by simp)⟩
  | cons l ls ih =>
    intro ts h
    simp only [parseLines] at h
    cases hl : parseLine l with
    | none => rw [hl] at h; simp at h
    | some t =>
      rw [hl] at h
      cases hls : parseLines ls with
      | none => rw [hls] at h; simp at h
      | some ts' =>
        rw [hls] at h
        simp at h
        subst h
        refine ⟨by simp [(ih ts' hls).1], ?_⟩
        intro i h1 h2
        cases i with
        | zero => simpa using hl
        | succ j =>
          have hj : j < ls.length := by
            simpa using Nat.lt_of_succ_lt_succ h1
          have hj' : j < ts'.length := by
            rw [(ih ts' hls).1]; exact hj
          simpa using (ih ts' hls).2 j hj hj'

theorem parseLines_none_of_mem :
    ∀ (ls : List String) (l : String), l ∈ ls → parseLine l = none →
      parseLines ls = none := by
  intro ls
  induction ls with
  | nil => intro l hl _; simp at hl
  | cons a as ih =>
    intro l hl hfail
    rcases List.mem_cons.mp hl with h | h
    · subst h
      simp [parseLines, hfail]
    · cases ha : parseLine a with
      | none => simp [parseLines, ha]
      | some t => simp [parseLines, ha, ih l h hfail]

theorem parseLine_none_of_short (line : String)
    (h : (dataArrayOf line).length < 10) : parseLine line = none := by
  unfold parseLine
  split
  · rename_i m d inf a n e c adv o cm rest heq
    exfalso
    rw [heq] at h
    simp at h
    omega
  · rfl

theorem parseLine_some_spec (line : String) (t : Transaction)
    (h : parseLine line = some t) :
    ∃ m d inf a n e c adv o cm rest,
      dataArrayOf line
          = m :: d :: inf :: a :: n :: e :: c :: adv :: o :: cm :: rest
        ∧ t.movement = m ∧ parseDate d = some t.date ∧ t.info = inf
        ∧ parseAmount a = some t.amount ∧ t.name = n ∧ t.event = e
        ∧ t.concept = c ∧ t.advance = parseAdvance adv ∧ t.origin = o
        ∧ t.comment = cm := by
  unfold parseLine at h
  split at h
  · rename_i m d inf a n e c adv o cm rest heq
    cases hd : parseDate d with
    | none => rw [hd] at h; simp at h
    | some dv =>
      cases ha : parseAmount a with
      | none => rw [hd, ha] at h; simp at h
      | some av =>
        rw [hd, ha] at h
        simp at h
        refine ⟨m, d, inf, a, n, e, c, adv, o, cm, rest, heq, ?_⟩
        subst h
        exact ⟨rfl, hd, rfl, ha, rfl, rfl, rfl, rfl, rfl, rfl⟩
  · simp at h

theorem parseLine_none_of_subparser (line : String)
    (m d inf a n e c adv o cm : String) (rest : List String)
    (heq : dataArrayOf line
      = m :: d :: inf :: a :: n :: e :: c :: adv :: o :: cm :: rest)
    (hfail : parseDate d = none ∨ parseAmount a = none) :
    parseLine line = none := by
  cases hpl : parseLine line with
  | none => rfl
  | some t =>
    exfalso
    rcases parseLine_some_spec line t hpl with
      ⟨m', d', inf', a', n', e', c', adv', o', cm', rest', heq', _, hd, _,
        ha, _⟩
    rw [heq] at heq'
    injection heq' with h1 heq'
    injection heq' with h2 heq'
    injection heq' with h3 heq'
    injection heq' with h4 heq'
    rcases hfail with hf | hf
    · rw [← h2, hf] at hd
      exact Option.noConfusion hd
    · rw [← h4, hf] at ha
      exact Option.noConfusion ha

theorem splitOnChar_no_sep (sep : Char) :
    ∀ cs : List Char, sep ∉ cs → splitOnChar sep cs = [cs] := by
  intro cs
  induction cs with
  | nil => intro _; rfl
  | cons c cs ih =>
    intro h
    have hc : c ≠ sep := fun hh => h (hh ▸ List.mem_cons_self c cs)
    have hcs : sep ∉ cs := fun hh => h (List.mem_cons_of_mem _ hh)
    simp [splitOnChar, hc, ih hcs]

theorem splitOnChar_append_sep (sep : Char) :
    ∀ (a rest : List Char), sep ∉ a →
      splitOnChar sep (a ++ sep :: rest) = a :: splitOnChar sep rest := by
  intro a rest
  induction a with
  | nil => intro _; simp [splitOnChar]
  | cons c cs ih =>
    intro h
    have hc : c ≠ sep := fun hh => h (hh ▸ List.mem_cons_self c cs)
    have hcs : sep ∉ cs := fun hh => h (List.mem_cons_of_mem _ hh)
    rw [List.cons_append]
    simp only [splitOnChar, if_neg hc]
    rw [ih hcs]

theorem mem_dropWhile_of_mem {p : Char → Bool} :
    ∀ {cs : List Char} {c : Char}, c ∈ cs → p c = false →
      c ∈ cs.dropWhile p := by
  intro cs
  induction cs with
  | nil => intro c hc _; simp at hc
  | cons a as ih =>
    intro c hc hp
    rcases List.mem_cons.mp hc with h | h
    · subst h
      rw [List.dropWhile_cons, if_neg (by simp [hp])]
      exact List.mem_cons_self _ _
    · by_cases ha : p a
      · rw [List.dropWhile_cons, if_pos (by simp [ha])]
        exact ih h hp
      · rw [List.dropWhile_cons, if_neg (by simp [ha])]
        exact List.mem_cons_of_mem _ h

theorem mem_stripWs {cs : List Char} {c : Char} (hc : c ∈ cs)
    (h : pyIsSpace c = false) : c ∈ stripWs cs := by
  unfold stripWs
  rw [List.mem_reverse]
  apply mem_dropWhile_of_mem _ h
  rw [List.mem_reverse]
  exact mem_dropWhile_of_mem hc h

theorem pyDigits_none :
    ∀ (cs : List Char) (c : Char), c ∈ cs → c.isDigit = false →
      c ≠ '_' → ∀ prev acc, pyDigits prev acc cs = none := by
  intro cs
  induction cs with
  | nil => intro c hc _ _ _ _; simp at hc
  | cons a as ih =>
    intro c hc h1 h2 prev acc
    rcases List.mem_cons.mp hc with h | h
    · subst h
      simp only [pyDigits, h1]
      rw [if_neg (by simp), if_neg h2]
    · simp only [pyDigits]
      by_cases ha : a.isDigit
      · rw [if_pos ha]
        exact ih c h h1 h2 true _
      · rw [if_neg ha]
        by_cases ha' : a = '_'
        · rw [if_pos ha']
          cases prev
          · simp
          · rw [if_pos rfl]
            exact ih c h h1 h2 false _
        · rw [if_neg ha']

theorem pyInt_none (cs : List Char) (c : Char) (hc : c ∈ cs)
    (h1 : c.isDigit = false) (h2 : c ≠ '_') (h3 : pyIsSpace c = false)
    (h4 : c ≠ '+') (h5 : c ≠ '-') : pyInt cs = none := by
  have hmem : c ∈ stripWs cs := mem_stripWs hc h3
  unfold pyInt
  split
  · rename_i rest heq
    rw [heq] at hmem
    have hr : c ∈ rest := by
      rcases List.mem_cons.mp hmem with h | h
      · exact absurd h h5
      · exact h
    simp [pyDigits_none rest c hr h1 h2 false 0]
  · rename_i rest heq
    rw [heq] at hmem
    have hr : c ∈ rest := by
      rcases List.mem_cons.mp hmem with h | h
      · exact absurd h h4
      · exact h
    simp [pyDigits_none rest c hr h1 h2 false 0]
  · simp [pyDigits_none (stripWs cs) c hmem h1 h2 false 0]

theorem parseAmount_none (s : String) (c : Char) (hc : c ∈ s.data)
    (h1 : c.isDigit = false) (h2 : c ≠ '_') (h3 : pyIsSpace c = false)
    (h4 : c ≠ '+') (h5 : c ≠ '-') (h6 : c ≠ ',') (h7 : c ≠ '.') :
    parseAmount s = none := by
  have hstrip : ∀ cs : List Char, c ∈ cs → c ∈ stripSeps cs := by
    intro cs hcs
    unfold stripSeps removeChar
    rw [List.mem_filter]
    refine ⟨List.mem_filter.mpr ⟨hcs, by simp [h6]⟩, by simp [h7]⟩
  unfold parseAmount
  split
  · rfl
  · rename_i rest heq
    rw [heq] at hc
    have hcr : c ∈ rest := by
      rcases List.mem_cons.mp hc with h | h
      · exact absurd h h5
      · exact h
    simp [pyInt_none _ c (hstrip rest hcr) h1 h2 h3 h4 h5]
  · rename_i x c' rest hne heq
    rw [heq] at hc
    exact pyInt_none _ c (hstrip (c' :: rest) hc) h1 h2 h3 h4 h5

theorem calculateEventLossConcepts_spec (L : List Transaction) :
    ∀ cns : List String,
      ((calculateEventLossConcepts cns L).1.map (fun c => c.name) = cns)
      ∧ (∀ cpt ∈ (calculateEventLossConcepts cns L).1,
          cpt.amount = sumAmounts (L.filter
            (fun t => t.concept == cpt.name && !t.advance)))
      ∧ (calculateEventLossConcepts cns L).2
          = ((calculateEventLossConcepts cns L).1.map
              (fun c => c.amount)).sum := by
  intro cns
  induction cns with
  | nil => simp [calculateEventLossConcepts]
  | cons c cs ih =>
    refine ⟨?_, ?_, ?_⟩
    · simp only [calculateEventLossConcepts, List.map_cons]
      rw [ih.1]
    · intro cpt hcpt
      simp only [calculateEventLossConcepts, List.mem_cons] at hcpt
      rcases hcpt with h | h
      · subst h
        rfl
      · exact ih.2.1 cpt h
    · simp only [calculateEventLossConcepts, List.map_cons, List.sum_cons]
      rw [ih.2.2]

theorem parseTransactions_cons (l1 l2 : String) (rest : List String) :
    parseTransactions (l1 :: l2 :: rest)
      = (parseLines rest).map (fun ts => (ts, eventNamesOf ts)) := rfl

theorem joinSemi_ten (f0 f1 f2 f3 f4 f5 f6 f7 f8 f9 : List Char) :
    joinSemi [f0, f1, f2, f3, f4, f5, f6, f7, f8, f9]
      = f0 ++ ';' :: (f1 ++ ';' :: (f2 ++ ';' :: (f3 ++ ';' :: (f4 ++ ';'
          :: (f5 ++ ';' :: (f6 ++ ';' :: (f7 ++ ';' :: (f8 ++ ';'
          :: f9)))))))) := rfl

theorem dataArrayOf_joinSemi
    (f0 f1 f2 f3 f4 f5 f6 f7 f8 f9 : List Char)
    (h0 : ';' ∉ f0) (h1 : ';' ∉ f1) (h2 : ';' ∉ f2) (h3 : ';' ∉ f3)
    (h4 : ';' ∉ f4) (h5 : ';' ∉ f5) (h6 : ';' ∉ f6) (h7 : ';' ∉ f7)
    (h8 : ';' ∉ f8) (h9 : ';' ∉ f9) (h9ne : f9 ≠ []) :
    dataArrayOf
        (String.mk (joinSemi [f0, f1, f2, f3, f4, f5, f6, f7, f8, f9]))
      = [String.mk f0, String.mk f1, String.mk f2, String.mk f3,
         String.mk f4, String.mk f5, String.mk f6, String.mk f7,
         String.mk f8, String.mk f9.dropLast] := by
  have h9' : ';' ∉ f9.dropLast :=
    fun hm => h9 ((List.dropLast_sublist f9).subset hm)
  have hE : (String.mk
        (joinSemi [f0, f1, f2, f3, f4, f5, f6, f7, f8, f9])).data.dropLast
      = f0 ++ ';' :: (f1 ++ ';' :: (f2 ++ ';' :: (f3 ++ ';' :: (f4 ++ ';'
          :: (f5 ++ ';' :: (f6 ++ ';' :: (f7 ++ ';' :: (f8 ++ ';'
          :: f9.dropLast)))))))) := by
    show (joinSemi [f0, f1, f2, f3, f4, f5, f6, f7, f8, f9]).dropLast = _
    rw [joinSemi_ten]
    have hassoc : f0 ++ ';' :: (f1 ++ ';' :: (f2 ++ ';' :: (f3 ++ ';'
          :: (f4 ++ ';' :: (f5 ++ ';' :: (f6 ++ ';' :: (f7 ++ ';'
          :: (f8 ++ ';' :: f9))))))))
        = (f0 ++ ';' :: (f1 ++ ';' :: (f2 ++ ';' :: (f3 ++ ';'
            :: (f4 ++ ';' :: (f5 ++ ';' :: (f6 ++ ';' :: (f7 ++ ';'
            :: (f8 ++ [';']))))))))) ++ f9 := by
      simp [List.append_assoc]
    rw [hassoc, List.dropLast_append_of_ne_nil _ h9ne]
    simp [List.append_assoc]
  unfold dataArrayOf
  rw [hE]
  rw [splitOnChar_append_sep ';' f0 _ h0]
  rw [splitOnChar_append_sep ';' f1 _ h1]
  rw [splitOnChar_append_sep ';' f2 _ h2]
  rw [splitOnChar_append_sep ';' f3 _ h3]
  rw [splitOnChar_append_sep ';' f4 _ h4]
  rw [splitOnChar_append_sep ';' f5 _ h5]
  rw [splitOnChar_append_sep ';' f6 _ h6]
  rw [splitOnChar_append_sep ';' f7 _ h7]
  rw [splitOnChar_append_sep ';' f8 _ h8]
  rw [splitOnChar_no_sep ';' f9.dropLast h9']
  rfl

theorem addEventTotals_caixa (b : String → EventAggregate)
    (acc : Totals) (e : String) :
    (addEventTotals b acc e).caixa
      = acc.caixa + (b e).caixaGross.grossBalance := rfl

theorem addEventTotals_paypal (b : String → EventAggregate)
    (acc : Totals) (e : String) :
    (addEventTotals b acc e).paypal
      = acc.paypal + (b e).paypalGross.grossBalance := rfl

theorem addEventTotals_total (b : String → EventAggregate)
    (acc : Totals) (e : String) :
    (addEventTotals b acc e).total
      = acc.total + (b e).totalGrossBalance := rfl

theorem foldl_addEventTotals (balances : String → EventAggregate) :
    ∀ (es : List String) (t : Totals),
      (es.foldl (addEventTotals balances) t).caixa
          = t.caixa + (es.map
              (fun e => (balances e).caixaGross.grossBalance)).sum
      ∧ (es.foldl (addEventTotals balances) t).paypal
          = t.paypal + (es.map
              (fun e => (balances e).paypalGross.grossBalance)).sum
      ∧ (es.foldl (addEventTotals balances) t).total
          = t.total + (es.map
              (fun e => (balances e).totalGrossBalance)).sum := by
  intro es
  induction es with
  | nil => intro t; simp
  | cons e es ih =>
    intro t
    rw [List.foldl_cons]
    refine ⟨?_, ?_, ?_⟩
    · rw [List.map_cons, List.sum_cons, (ih _).1, addEventTotals_caixa]
      ring
    · rw [List.map_cons, List.sum_cons, (ih _).2.1, addEventTotals_paypal]
      ring
    · rw [List.map_cons, List.sum_cons, (ih _).2.2, addEventTotals_total]
      ring

theorem gross_loss_nonpos (e : String) (ts : List Transaction)
    (o : String) :
    (calulcateGross (calculateEvent e ts).transactionsLoss
      (calculateEvent e ts).transactionsProfit o).grossLoss ≤ 0 := by
  rw [calulcateGross_loss, sumAmounts_eq_amountSum]
  apply amountSum_nonpos
  intro t ht
  have h1 := (List.mem_filter.mp ht).1
  rw [calculateEvent_loss] at h1
  have h2 := (List.mem_filter.mp h1).2
  simp only [decide_eq_true_eq] at h2
  omega

theorem gross_profit_nonneg (e : String) (ts : List Transaction)
    (o : String) :
    0 ≤ (calulcateGross (calculateEvent e ts).transactionsLoss
      (calculateEvent e ts).transactionsProfit o).grossProfit := by
  rw [calulcateGross_profit, sumAmounts_eq_amountSum]
  apply amountSum_nonneg
  intro t ht
  have h1 := (List.mem_filter.mp ht).1
  rw [calculateEvent_profit] at h1
  have h2 := (List.mem_filter.mp h1).2
  simp only [decide_eq_true_eq] at h2
  omega

/-! ## Claim theorems -/

/-- Claim C1 counterexample: for the transaction set containing a single
transaction of amount 100 whose origin is the literal "OTHER", the sum over
all distinct events of totalGrossBalance is 0, while the sum of the amounts
of the transactions with nonzero amount is 100 — the transaction is dropped
from the event totals, contradicting the claim for origins outside
CAIXA/PAYPAL. -/
theorem other_origin_dropped_cex :
    ((eventNamesOf otherOriginExample).map (fun e =>
        (calculateEvent e otherOriginExample).totalGrossBalance)).sum = 0
    ∧ ((otherOriginExample.filter (fun t => t.amount != 0)).map
        (fun t => t.amount)).sum = 100 := by decide

/-- Claim C1 (amended): for every transaction set, the sum over all distinct
events of the event's totalGrossBalance equals the sum of the amounts of the
transactions with nonzero amount whose origin is "CAIXA" or "PAYPAL";
transactions with any other origin are excluded from every event total. -/
theorem sum_events_gross_balance (ts : List Transaction) :
    ((eventNamesOf ts).map
        (fun e => (calculateEvent e ts).totalGrossBalance)).sum
      = amountSum (ts.filter (fun t =>
          (t.amount != 0) && inChannels t)) := by
  have hnod : (eventNamesOf ts).Nodup := by
    rw [eventNamesOf_eq]
    exact nodup_firstOccur _
  have hcov : ∀ t ∈ ts, ((t.amount != 0) && inChannels t) = true →
      t.event ∈ eventNamesOf ts := by
    intro t ht _
    rw [eventNamesOf_eq, mem_firstOccur]
    exact List.mem_map.mpr ⟨t, ht, rfl⟩
  have hpart := amountSum_partition_by_event
    (fun t => (t.amount != 0) && inChannels t) (eventNamesOf ts) ts hnod hcov
  rw [← hpart]
  congr 1
  apply List.map_congr_left
  intro e _
  exact totalGrossBalance_eq e ts

/-- Claim C2: parseTransactions skips exactly the first two lines
unconditionally (their content is irrelevant); on success every remaining
line yields exactly one transaction, in order, and the second component is
the list of distinct event names in first-occurrence order; a line that
fails to parse aborts the whole run; a line whose dataArray has fewer than
ten fields fails, as does a rejected date or amount sub-parser; and a
successfully parsed line takes its ten fields, in order, from dataArray
indices 0–9. -/
theorem parseTransactions_spec :
    (∀ (l1 l2 l1' l2' : String) (rest : List String),
        parseTransactions (l1 :: l2 :: rest)
          = parseTransactions (l1' :: l2' :: rest))
    ∧ (∀ (l1 l2 : String) (rest : List String)
          (ts : List Transaction) (evs : List String),
        parseTransactions (l1 :: l2 :: rest) = some (ts, evs) →
        ts.length = rest.length
        ∧ (∀ i (h1 : i < rest.length) (h2 : i < ts.length),
            parseLine (rest.get ⟨i, h1⟩) = some (ts.get ⟨i, h2⟩))
        ∧ evs = firstOccur (ts.map (fun t => t.event)))
    ∧ (∀ (l1 l2 : String) (rest : List String) (l : String),
        l ∈ rest → parseLine l = none →
        parseTransactions (l1 :: l2 :: rest) = none)
    ∧ (∀ line : String, (dataArrayOf line).length < 10 →
        parseLine line = none)
    ∧ (∀ (line : String) (m d inf a n e c adv o cm : String)
          (rest : List String),
        dataArrayOf line
            = m :: d :: inf :: a :: n :: e :: c :: adv :: o :: cm :: rest →
        parseDate d = none ∨ parseAmount a = none →
        parseLine line = none)
    ∧ (∀ (line : String) (t : Transaction), parseLine line = some t →
        ∃ m d inf a n e c adv o cm rest,
          dataArrayOf line
              = m :: d :: inf :: a :: n :: e :: c :: adv :: o :: cm :: rest
            ∧ t.movement = m ∧ parseDate d = some t.date ∧ t.info = inf
            ∧ parseAmount a = some t.amount ∧ t.name = n ∧ t.event = e
            ∧ t.concept = c ∧ t.advance = parseAdvance adv ∧ t.origin = o
            ∧ t.comment = cm) := by
  refine ⟨fun l1 l2 l1' l2' rest => rfl, ?_, ?_,
    parseLine_none_of_short, parseLine_none_of_subparser,
    parseLine_some_spec⟩
  · intro l1 l2 rest ts evs h
    rw [parseTransactions_cons] at h
    cases hres : parseLines rest with
    | none => rw [hres] at h; simp at h
    | some ts' =>
      rw [hres] at h
      simp at h
      obtain ⟨h1, h2⟩ := h
      subst h1
      refine ⟨(parseLines_some_spec rest ts' hres).1,
        (parseLines_some_spec rest ts' hres).2, ?_⟩
      rw [← h2, eventNamesOf_eq]
  · intro l1 l2 rest l hl hfail
    rw [parseTransactions_cons, parseLines_none_of_mem rest l hl hfail]
    rfl

/-- Witness for C2 at a concrete three-line input: the single data line
yields exactly one transaction. -/
theorem parseTransactions_spec_witness :
    parseTransactions
        ["header1", "header2", "M;01/01/2023;I;1,00;N;E;C;N;CAIXA;c\n"]
      = some ([sampleTransaction], ["E"])
    ∧ [sampleTransaction].length = 1 := by
  have hp : parseTransactions
      ("header1" :: "header2" :: ["M;01/01/2023;I;1,00;N;E;C;N;CAIXA;c\n"])
      = some ([sampleTransaction], ["E"]) := by decide
  refine ⟨hp, ?_⟩
  have h := parseTransactions_spec.2.1 "header1" "header2"
    ["M;01/01/2023;I;1,00;N;E;C;N;CAIXA;c\n"] [sampleTransaction] ["E"] hp
  exact h.1.trans rfl

/-- Claim C3: for every event aggregate, in both origin buckets and in the
totals, grossBalance = grossLoss + grossProfit with grossLoss ≤ 0 and
grossProfit ≥ 0; the loss partition is exactly the event's transactions of
negative amount, the profit partition exactly those of positive amount, and
a zero-amount transaction belongs to neither partition. -/
theorem gross_sign_partition (e : String) (ts : List Transaction) :
    ((calculateEvent e ts).caixaGross.grossBalance
        = (calculateEvent e ts).caixaGross.grossLoss
            + (calculateEvent e ts).caixaGross.grossProfit
      ∧ (calculateEvent e ts).caixaGross.grossLoss ≤ 0
      ∧ 0 ≤ (calculateEvent e ts).caixaGross.grossProfit)
    ∧ ((calculateEvent e ts).paypalGross.grossBalance
        = (calculateEvent e ts).paypalGross.grossLoss
            + (calculateEvent e ts).paypalGross.grossProfit
      ∧ (calculateEvent e ts).paypalGross.grossLoss ≤ 0
      ∧ 0 ≤ (calculateEvent e ts).paypalGross.grossProfit)
    ∧ ((calculateEvent e ts).totalGrossBalance
        = (calculateEvent e ts).totalGrossLoss
            + (calculateEvent e ts).totalGrossProfit
      ∧ (calculateEvent e ts).totalGrossLoss ≤ 0
      ∧ 0 ≤ (calculateEvent e ts).totalGrossProfit)
    ∧ (calculateEvent e ts).transactionsLoss
        = (ts.filter (fun t => t.event == e)).filter
            (fun t => decide (t.amount < 0))
    ∧ (calculateEvent e ts).transactionsProfit
        = (ts.filter (fun t => t.event == e)).filter
            (fun t => decide (0 < t.amount))
    ∧ ∀ t : Transaction, t.amount = 0 →
        t ∉ (calculateEvent e ts).transactionsLoss
        ∧ t ∉ (calculateEvent e ts).transactionsProfit := by
  refine ⟨⟨?_, ?_, ?_⟩, ⟨?_, ?_, ?_⟩, ⟨?_, ?_, ?_⟩, rfl, rfl, ?_⟩
  · rw [calculateEvent_caixa]
    exact calulcateGross_balance _ _ _
  · rw [calculateEvent_caixa]
    exact gross_loss_nonpos e ts "CAIXA"
  · rw [calculateEvent_caixa]
    exact gross_profit_nonneg e ts "CAIXA"
  · rw [calculateEvent_paypal]
    exact calulcateGross_balance _ _ _
  · rw [calculateEvent_paypal]
    exact gross_loss_nonpos e ts "PAYPAL"
  · rw [calculateEvent_paypal]
    exact gross_profit_nonneg e ts "PAYPAL"
  · rw [calculateEvent_totalBalance]
    ring
  · rw [calculateEvent_totalLoss, calculateEvent_caixa,
      calculateEvent_paypal]
    have hc := gross_loss_nonpos e ts "CAIXA"
    have hp := gross_loss_nonpos e ts "PAYPAL"
    omega
  · rw [calculateEvent_totalProfit, calculateEvent_caixa,
      calculateEvent_paypal]
    have hc := gross_profit_nonneg e ts "CAIXA"
    have hp := gross_profit_nonneg e ts "PAYPAL"
    omega
  · intro t h0
    constructor
    · rw [calculateEvent_loss]
      intro hmem
      have h2 := (List.mem_filter.mp hmem).2
      simp only [decide_eq_true_eq] at h2
      omega
    · rw [calculateEvent_profit]
      intro hmem
      have h2 := (List.mem_filter.mp hmem).2
      simp only [decide_eq_true_eq] at h2
      omega

/-- Witness for C3 at a concrete zero-amount transaction: it lands in
neither partition. -/
theorem gross_sign_partition_witness :
    mkT 0 "E" "CAIXA" "" false
        ∉ (calculateEvent "E" [mkT 0 "E" "CAIXA" "" false]).transactionsLoss
    ∧ mkT 0 "E" "CAIXA" "" false
        ∉ (calculateEvent "E"
            [mkT 0 "E" "CAIXA" "" false]).transactionsProfit :=
  (gross_sign_partition "E" [mkT 0 "E" "CAIXA" "" false]).2.2.2.2.2
    (mkT 0 "E" "CAIXA" "" false) rfl

/-- Claim C4: for every event, the elementwise sum of the CAIXA and PAYPAL
per-origin gross figures equals the event's total gross figures; and the
spec's Gala scenario evaluates exactly as stated. -/
theorem perOrigin_sum_eq_totals :
    (∀ (e : String) (ts : List Transaction),
      (calculateEvent e ts).caixaGross.grossLoss
          + (calculateEvent e ts).paypalGross.grossLoss
        = (calculateEvent e ts).totalGrossLoss
      ∧ (calculateEvent e ts).caixaGross.grossProfit
          + (calculateEvent e ts).paypalGross.grossProfit
        = (calculateEvent e ts).totalGrossProfit
      ∧ (calculateEvent e ts).caixaGross.grossBalance
          + (calculateEvent e ts).paypalGross.grossBalance
        = (calculateEvent e ts).totalGrossBalance)
    ∧ (calculateEvent "Gala" galaExample).caixaGross
        = { grossLoss := -1000, grossProfit := 0, grossBalance := -1000 }
    ∧ (calculateEvent "Gala" galaExample).paypalGross
        = { grossLoss := 0, grossProfit := 500, grossBalance := 500 }
    ∧ (calculateEvent "Gala" galaExample).totalGrossBalance = -500 := by
  refine ⟨fun e ts => ⟨(calculateEvent_totalLoss e ts).symm,
    (calculateEvent_totalProfit e ts).symm, ?_⟩,
    by decide, by decide, by decide⟩
  rw [calculateEvent_totalBalance, calculateEvent_totalProfit,
    calculateEvent_totalLoss, calculateEvent_caixa, calculateEvent_paypal,
    calulcateGross_balance, calulcateGross_balance]
  ring

/-- Claim C5: the net-loss concept breakdown of every event lists exactly
the distinct concepts of the loss transactions, once each, in
first-occurrence order; each concept's amount is the sum of the non-advance
loss transactions with that concept; and netLossTotal is the sum of the
concept amounts. -/
theorem netLoss_concepts_spec (e : String) (ts : List Transaction) :
    ((calculateEvent e ts).netLossConcepts.map (fun c => c.name)
        = firstOccur ((calculateEvent e ts).transactionsLoss.map
            (fun t => t.concept)))
    ∧ ((calculateEvent e ts).netLossConcepts.map (fun c => c.name)).Nodup
    ∧ (∀ cname : String,
        cname ∈ (calculateEvent e ts).netLossConcepts.map (fun c => c.name)
          ↔ cname ∈ (calculateEvent e ts).transactionsLoss.map
              (fun t => t.concept))
    ∧ (∀ cpt ∈ (calculateEvent e ts).netLossConcepts,
        cpt.amount = sumAmounts
          ((calculateEvent e ts).transactionsLoss.filter
            (fun t => t.concept == cpt.name && !t.advance)))
    ∧ (calculateEvent e ts).netLossTotal
        = ((calculateEvent e ts).netLossConcepts.map
            (fun c => c.amount)).sum := by
  have hspec := calculateEventLossConcepts_spec
    (calculateEvent e ts).transactionsLoss
    (getEventConceptNames (calculateEvent e ts).transactionsLoss)
  have hnames : (calculateEvent e ts).netLossConcepts.map (fun c => c.name)
      = firstOccur ((calculateEvent e ts).transactionsLoss.map
          (fun t => t.concept)) := by
    rw [calculateEvent_concepts, hspec.1, getEventConceptNames_eq]
  refine ⟨hnames, ?_, ?_, ?_, ?_⟩
  · rw [hnames]
    exact nodup_firstOccur _
  · intro cname
    rw [hnames, mem_firstOccur]
  · intro cpt hcpt
    rw [calculateEvent_concepts] at hcpt
    exact hspec.2.1 cpt hcpt
  · rw [calculateEvent_netTotal, calculateEvent_concepts]
    exact hspec.2.2

/-- Witness for C5 at a concrete single-loss-transaction event: the "food"
concept's amount is the non-advance filtered sum. -/
theorem netLoss_concepts_spec_witness :
    (⟨"food", -500⟩ : LossConcept).amount
      = sumAmounts
          ((calculateEvent "E" lossConceptExample).transactionsLoss.filter
            (fun t =>
              t.concept == (⟨"food", -500⟩ : LossConcept).name
                && !t.advance)) :=
  (netLoss_concepts_spec "E" lossConceptExample).2.2.2.1
    ⟨"food", -500⟩ (by decide)

/-- Claim C6 counterexample: separator stripping leaves "+1200" for the
input "+12,00" — content containing the non-digit '+' — yet parseAmount
succeeds with 1200 instead of failing; likewise "--12,00" strips to the
non-digit-bearing "-1200" after the sign is removed, and parseAmount yields
1200. -/
theorem parseAmount_sign_accepted_cex :
    parseAmount "+12,00" = some 1200
    ∧ '+' ∈ stripSeps "+12,00".data
    ∧ ('+').isDigit = false
    ∧ parseAmount "--12,00" = some 1200 := by decide

/-- Claim C6 (amended): parseAmount strips dot and comma separators,
converts the remainder with Python's int (which itself accepts surrounding
whitespace, one sign, and underscore digit separators), and applies a
leading '-' after stripping, so "1.234,56" parses to 123456 and "-12,00" to
-1200; it fails on empty input and on any input containing a character that
is not a digit, an underscore, a sign, a separator, or whitespace — but an
extra sign inside the stripped content (such as "+12,00") is accepted
rather than rejected. -/
theorem parseAmount_spec :
    parseAmount "1.234,56" = some 123456
    ∧ parseAmount "-12,00" = some (-1200)
    ∧ parseAmount "" = none
    ∧ parseAmount "12a4,56" = none
    ∧ ∀ (s : String) (c : Char), c ∈ s.data → c.isDigit = false →
        c ≠ '_' → pyIsSpace c = false → c ≠ '+' → c ≠ '-' →
        c ≠ ',' → c ≠ '.' → parseAmount s = none := by
  refine ⟨by decide, by decide, by decide, by decide, ?_⟩
  intro s c hc h1 h2 h3 h4 h5 h6 h7
  exact parseAmount_none s c hc h1 h2 h3 h4 h5 h6 h7

/-- Witness for C6 (amended) at the concrete input "1x,00" with the
non-accepted character 'x'. -/
theorem parseAmount_spec_witness : parseAmount "1x,00" = none :=
  parseAmount_spec.2.2.2.2 "1x,00" 'x' (by decide) (by decide) (by decide)
    (by decide) (by decide) (by decide) (by decide) (by decide)

/-- Claim C7 counterexample: parseAmount applied to formatAmount output
fails for every element of the representative set {1, -1, 99, 100, 12345,
-12345} — the " €" suffix appended by formatAmount is never stripped by
parseAmount, so the round trip never succeeds. -/
theorem formatAmount_roundtrip_fails_cex :
    parseAmount (formatAmount 1) = none
    ∧ parseAmount (formatAmount (-1)) = none
    ∧ parseAmount (formatAmount 99) = none
    ∧ parseAmount (formatAmount 100) = none
    ∧ parseAmount (formatAmount 12345) = none
    ∧ parseAmount (formatAmount (-12345)) = none := by decide

/-- Claim C7 (amended): after removing the two-character " €" suffix of
formatAmount's output, parseAmount succeeds and yields x itself (hence a
value of the same absolute value) for every x in the representative set. -/
theorem formatAmount_roundtrip_stripped :
    parseAmount (stripCurrencySuffix (formatAmount 1)) = some 1
    ∧ parseAmount (stripCurrencySuffix (formatAmount (-1))) = some (-1)
    ∧ parseAmount (stripCurrencySuffix (formatAmount 99)) = some 99
    ∧ parseAmount (stripCurrencySuffix (formatAmount 100)) = some 100
    ∧ parseAmount (stripCurrencySuffix (formatAmount 12345)) = some 12345
    ∧ parseAmount (stripCurrencySuffix (formatAmount (-12345)))
        = some (-12345) := by decide

/-- Claim C8: the final summary accumulates the running channel totals in
the fixed order ordinary events, grants, taxes; the "Gross Total"
checkpoint equals the sums over ordinary events plus grants (pure tax
events excluded), and the "Net Total" checkpoint equals the sums over all
three sections, per channel and in total. -/
theorem writeEvents_checkpoints (eventNames : List String)
    (balances : String → EventAggregate)
    (taxNames grantNames : List String) :
    (writeEventsSummary eventNames balances taxNames grantNames).ordinaryRows
        = eventNames.filter (fun e =>
            !(decide (e ∈ taxNames)) && !(decide (e ∈ grantNames)))
    ∧ (writeEventsSummary eventNames balances taxNames grantNames).grantRows
        = eventNames.filter (fun e => decide (e ∈ grantNames))
    ∧ (writeEventsSummary eventNames balances taxNames grantNames).taxRows
        = eventNames.filter (fun e => decide (e ∈ taxNames))
    ∧ (writeEventsSummary eventNames balances taxNames
          grantNames).grossTotal.total
        = ((((writeEventsSummary eventNames balances taxNames
              grantNames).ordinaryRows
            ++ (writeEventsSummary eventNames balances taxNames
                grantNames).grantRows).map
            (fun e => (balances e).totalGrossBalance)).sum)
    ∧ (writeEventsSummary eventNames balances taxNames
          grantNames).grossTotal.caixa
        = ((((writeEventsSummary eventNames balances taxNames
              grantNames).ordinaryRows
            ++ (writeEventsSummary eventNames balances taxNames
                grantNames).grantRows).map
            (fun e => (balances e).caixaGross.grossBalance)).sum)
    ∧ (writeEventsSummary eventNames balances taxNames
          grantNames).grossTotal.paypal
        = ((((writeEventsSummary eventNames balances taxNames
              grantNames).ordinaryRows
            ++ (writeEventsSummary eventNames balances taxNames
                grantNames).grantRows).map
            (fun e => (balances e).paypalGross.grossBalance)).sum)
    ∧ (writeEventsSummary eventNames balances taxNames
          grantNames).netTotal.total
        = ((((writeEventsSummary eventNames balances taxNames
              grantNames).ordinaryRows
            ++ (writeEventsSummary eventNames balances taxNames
                grantNames).grantRows
            ++ (writeEventsSummary eventNames balances taxNames
                grantNames).taxRows).map
            (fun e => (balances e).totalGrossBalance)).sum)
    ∧ (writeEventsSummary eventNames balances taxNames
          grantNames).netTotal.caixa
        = ((((writeEventsSummary eventNames balances taxNames
              grantNames).ordinaryRows
            ++ (writeEventsSummary eventNames balances taxNames
                grantNames).grantRows
            ++ (writeEventsSummary eventNames balances taxNames
                grantNames).taxRows).map
            (fun e => (balances e).caixaGross.grossBalance)).sum)
    ∧ (writeEventsSummary eventNames balances taxNames
          grantNames).netTotal.paypal
        = ((((writeEventsSummary eventNames balances taxNames
              grantNames).ordinaryRows
            ++ (writeEventsSummary eventNames balances taxNames
                grantNames).grantRows
            ++ (writeEventsSummary eventNames balances taxNames
                grantNames).taxRows).map
            (fun e => (balances e).paypalGross.grossBalance)).sum) := by
  have hord : (writeEventsSummary eventNames balances taxNames
      grantNames).ordinaryRows
      = eventNames.filter (fun e =>
          !(decide (e ∈ taxNames)) && !(decide (e ∈ grantNames))) := rfl
  have hgr : (writeEventsSummary eventNames balances taxNames
      grantNames).grantRows
      = eventNames.filter (fun e => decide (e ∈ grantNames)) := rfl
  have htx : (writeEventsSummary eventNames balances taxNames
      grantNames).taxRows
      = eventNames.filter (fun e => decide (e ∈ taxNames)) := rfl
  have hzero : (⟨0, 0, 0⟩ : Totals).caixa = 0 ∧ (⟨0, 0, 0⟩ : Totals).paypal = 0
      ∧ (⟨0, 0, 0⟩ : Totals).total = 0 := ⟨rfl, rfl, rfl⟩
  have hgross : (writeEventsSummary eventNames balances taxNames
      grantNames).grossTotal
      = ((writeEventsSummary eventNames balances taxNames
          grantNames).grantRows).foldl (addEventTotals balances)
          (((writeEventsSummary eventNames balances taxNames
            grantNames).ordinaryRows).foldl (addEventTotals balances)
            ⟨0, 0, 0⟩) := rfl
  have hnet : (writeEventsSummary eventNames balances taxNames
      grantNames).netTotal
      = ((writeEventsSummary eventNames balances taxNames
          grantNames).taxRows).foldl (addEventTotals balances)
          ((writeEventsSummary eventNames balances taxNames
            grantNames).grossTotal) := rfl
  refine ⟨hord, hgr, htx, ?_, ?_, ?_, ?_, ?_, ?_⟩
  · rw [hgross, List.map_append, List.sum_append,
      (foldl_addEventTotals balances _ _).2.2,
      (foldl_addEventTotals balances _ _).2.2, hzero.2.2]
    ring
  · rw [hgross, List.map_append, List.sum_append,
      (foldl_addEventTotals balances _ _).1,
      (foldl_addEventTotals balances _ _).1, hzero.1]
    ring
  · rw [hgross, List.map_append, List.sum_append,
      (foldl_addEventTotals balances _ _).2.1,
      (foldl_addEventTotals balances _ _).2.1, hzero.2.1]
    ring
  · rw [hnet, (foldl_addEventTotals balances _ _).2.2, hgross,
      List.append_assoc, List.map_append, List.sum_append,
      List.map_append, List.sum_append,
      (foldl_addEventTotals balances _ _).2.2,
      (foldl_addEventTotals balances _ _).2.2, hzero.2.2]
    ring
  · rw [hnet, (foldl_addEventTotals balances _ _).1, hgross,
      List.append_assoc, List.map_append, List.sum_append,
      List.map_append, List.sum_append,
      (foldl_addEventTotals balances _ _).1,
      (foldl_addEventTotals balances _ _).1, hzero.1]
    ring
  · rw [hnet, (foldl_addEventTotals balances _ _).2.1, hgross,
      List.append_assoc, List.map_append, List.sum_append,
      List.map_append, List.sum_append,
      (foldl_addEventTotals balances _ _).2.1,
      (foldl_addEventTotals balances _ _).2.1, hzero.2.1]
    ring

/-- Claim C9 counterexample: with event "X" in both the caller-supplied
grants and taxes sets and total balance 100, the event appears in the tax
section as well as the grant section, and the Net Total is 200 — the
figures are counted twice, contradicting "appears in the grant section only
and counted exactly once". -/
theorem grant_and_tax_double_count_cex :
    (writeEventsSummary ["X"] (balancesOf dualCategoryExample)
        ["X"] ["X"]).grantRows = ["X"]
    ∧ (writeEventsSummary ["X"] (balancesOf dualCategoryExample)
        ["X"] ["X"]).taxRows = ["X"]
    ∧ (calculateEvent "X" dualCategoryExample).totalGrossBalance = 100
    ∧ (writeEventsSummary ["X"] (balancesOf dualCategoryExample)
        ["X"] ["X"]).netTotal.total = 200 := by decide

/-- Claim C9 (amended): an event name in both the grants set and the taxes
set appears in both the grant section and the tax section of the summary
(and not among ordinary events); its figures enter the running totals
twice — once before the Gross Total checkpoint via the grant loop, and once
more via the tax loop, whose contribution is added on top of the Gross
Total to form the Net Total. -/
theorem grant_and_tax_membership (eventNames : List String)
    (balances : String → EventAggregate) (taxNames grantNames : List String)
    (e : String) (he : e ∈ eventNames) (hg : e ∈ grantNames)
    (ht : e ∈ taxNames) :
    e ∈ (writeEventsSummary eventNames balances taxNames
        grantNames).grantRows
    ∧ e ∈ (writeEventsSummary eventNames balances taxNames
        grantNames).taxRows
    ∧ e ∉ (writeEventsSummary eventNames balances taxNames
        grantNames).ordinaryRows
    ∧ (writeEventsSummary eventNames balances taxNames
          grantNames).netTotal.total
        = (writeEventsSummary eventNames balances taxNames
            grantNames).grossTotal.total
          + (((writeEventsSummary eventNames balances taxNames
              grantNames).taxRows).map
              (fun x => (balances x).totalGrossBalance)).sum := by
  refine ⟨?_, ?_, ?_, ?_⟩
  · show e ∈ eventNames.filter (fun x => decide (x ∈ grantNames))
    exact List.mem_filter.mpr ⟨he, by simp [hg]⟩
  · show e ∈ eventNames.filter (fun x => decide (x ∈ taxNames))
    exact List.mem_filter.mpr ⟨he, by simp [ht]⟩
  · show e ∉ eventNames.filter (fun x =>
      !(decide (x ∈ taxNames)) && !(decide (x ∈ grantNames)))
    intro hmem
    have h2 := (List.mem_filter.mp hmem).2
    simp [hg, ht] at h2
  · exact (foldl_addEventTotals balances _ _).2.2

/-- Witness for C9 (amended) at the concrete dual-category configuration:
"X" lands in both the grant and the tax section. -/
theorem grant_and_tax_membership_witness :
    "X" ∈ (writeEventsSummary ["X"] (balancesOf dualCategoryExample)
        ["X"] ["X"]).grantRows
    ∧ "X" ∈ (writeEventsSummary ["X"] (balancesOf dualCategoryExample)
        ["X"] ["X"]).taxRows := by
  have h := grant_and_tax_membership ["X"] (balancesOf dualCategoryExample)
    ["X"] ["X"] "X" (by decide) (by decide) (by decide)
  exact ⟨h.1, h.2.1⟩

/-- Claim C10: parseLine removes the final character of the line
unconditionally before splitting — the parse result does not depend on what
the final character is — and consequently, for a line of ten
semicolon-separated fields not terminated by a newline (the last field
nonempty), the parsed comment is the tenth field with its final character
deleted. -/
theorem parseLine_drops_final_char :
    (∀ (l : String) (c c' : Char),
        parseLine (String.mk (l.data ++ [c]))
          = parseLine (String.mk (l.data ++ [c'])))
    ∧ (∀ f0 f1 f2 f3 f4 f5 f6 f7 f8 f9 : List Char,
        ';' ∉ f0 → ';' ∉ f1 → ';' ∉ f2 → ';' ∉ f3 → ';' ∉ f4 →
        ';' ∉ f5 → ';' ∉ f6 → ';' ∉ f7 → ';' ∉ f8 → ';' ∉ f9 →
        f9 ≠ [] →
        ∀ t : Transaction,
          parseLine (String.mk
              (joinSemi [f0, f1, f2, f3, f4, f5, f6, f7, f8, f9]))
            = some t →
          t.comment = String.mk f9.dropLast) := by
  constructor
  · intro l c c'
    have hda : ∀ x : Char, dataArrayOf (String.mk (l.data ++ [x]))
        = (splitOnChar ';' l.data).map String.mk := by
      intro x
      unfold dataArrayOf
      rw [show (String.mk (l.data ++ [x])).data = l.data ++ [x] from rfl,
        List.dropLast_concat]
    unfold parseLine
    rw [hda c, hda c']
  · intro f0 f1 f2 f3 f4 f5 f6 f7 f8 f9 h0 h1 h2 h3 h4 h5 h6 h7 h8 h9
      h9ne t ht
    rcases parseLine_some_spec _ t ht with
      ⟨m, d, inf, a, n, e, c, adv, o, cm, rest, heq, hm, hd, hinf, ha,
        hn, he, hc, hadv, ho, hcm⟩
    rw [dataArrayOf_joinSemi f0 f1 f2 f3 f4 f5 f6 f7 f8 f9
      h0 h1 h2 h3 h4 h5 h6 h7 h8 h9 h9ne] at heq
    simp only [List.cons.injEq] at heq
    rw [hcm, ← heq.2.2.2.2.2.2.2.2.2.1]

/-- Witness for C10 at the concrete unterminated last line
"M;01/01/2023;I;1,00;N;E;C;N;CAIXA;hello": the parsed comment is
"hell". -/
theorem parseLine_drops_final_char_witness :
    (⟨"M", 1672531200000, "I", 100, "N", "E", "C", false, "CAIXA",
        "hell"⟩ : Transaction).comment = "hell" := by
  have hp : parseLine (String.mk (joinSemi
      ["M".data, "01/01/2023".data, "I".data, "1,00".data, "N".data,
       "E".data, "C".data, "N".data, "CAIXA".data, "hello".data]))
      = some ⟨"M", 1672531200000, "I", 100, "N", "E", "C", false,
          "CAIXA", "hell"⟩ := by decide
  have h := parseLine_drops_final_char.2 "M".data "01/01/2023".data
    "I".data "1,00".data "N".data "E".data "C".data "N".data
    "CAIXA".data "hello".data (by decide) (by decide) (by decide)
    (by decide) (by decide) (by decide) (by decide) (by decide)
    (by decide) (by decide) (by decide) _ hp
  rw [h]
  decide

end Cuentas
